import Mathlib

/-!
A verification development for the `create3` Rust crate.

The crate computes deterministic CREATE3 contract addresses
(`calc_addr`, `calc_addr_with_bytes`) and searches for "vanity" salts
whose derived address starts with a requested hex string
(`generate_salt`, `generate_salt_prefix` and their multithreaded
variants).

Modelling conventions:
* byte sequences (`&[u8]`, `Vec<u8>`, `[u8; N]`) are `List Nat` with
  entries below 256;
* Rust strings are `List Nat` of Unicode scalar values; `str::as_bytes`
  is modelled by UTF-8 encoding (`strBytes`);
* Keccak-256 is embedded executably (the `sha3` crate's `Keccak256`,
  i.e. the original Keccak with `0x01` domain padding);
* the random generator behind `rand`'s `Alphanumeric` distribution is
  an oracle `rng : Nat → Nat`; the distribution picks uniformly from a
  62-character set, modelled by indexing that set with `rng i % 62`;
* unbounded `loop`s become fuel-indexed recursions returning `Option`;
* the multithreaded search becomes a step function on an explicit
  search state (shared slot plus per-worker states) driven by a
  schedule of worker ids.
-/

/-- `errors::Create3GenerateSaltError`. -/
inductive Create3GenerateSaltError where
  | PrefixTooLong : Create3GenerateSaltError
  | PrefixNotHexEncoded : Create3GenerateSaltError
  deriving DecidableEq, Repr

/-! ## Keccak-256 (the hash primitive consumed by the crate) -/

/-- 64-bit lane mask. -/
def MASK64 : Nat := 2 ^ 64 - 1

/-- Rotate a 64-bit lane left by `n` (0 ≤ n < 64). -/
def rotl64 (x n : Nat) : Nat := ((x <<< n) ||| (x >>> (64 - n))) &&& MASK64

/-- Keccak-f[1600] round constants (decimal). -/
def ROUND_CONSTANTS : List Nat :=
  [1, 32898, 9223372036854808714,
   9223372039002292224, 32907, 2147483649,
   9223372039002292353, 9223372036854808585, 138,
   136, 2147516425, 2147483658,
   2147516555, 9223372036854775947, 9223372036854808713,
   9223372036854808579, 9223372036854808578, 9223372036854775936,
   32778, 9223372039002259466, 9223372039002292353,
   9223372036854808704, 2147483649, 9223372039002292232]

/-- One Keccak-f round (θ, ρ, π, χ, ι) on a 25-lane state, lane order
`x + 5*y`.  Written as straight-line code over the destructured lanes so
that every intermediate value is shared. -/
def keccakRound (s : List Nat) (rc : Nat) : List Nat :=
  match s with
  | a0 :: a1 :: a2 :: a3 :: a4 :: a5 :: a6 :: a7 :: a8 :: a9 ::
    a10 :: a11 :: a12 :: a13 :: a14 :: a15 :: a16 :: a17 :: a18 :: a19 ::
    a20 :: a21 :: a22 :: a23 :: a24 :: _ =>
    let c0 := a0 ^^^ a5 ^^^ a10 ^^^ a15 ^^^ a20
    let c1 := a1 ^^^ a6 ^^^ a11 ^^^ a16 ^^^ a21
    let c2 := a2 ^^^ a7 ^^^ a12 ^^^ a17 ^^^ a22
    let c3 := a3 ^^^ a8 ^^^ a13 ^^^ a18 ^^^ a23
    let c4 := a4 ^^^ a9 ^^^ a14 ^^^ a19 ^^^ a24
    let d0 := c4 ^^^ rotl64 c1 1
    let d1 := c0 ^^^ rotl64 c2 1
    let d2 := c1 ^^^ rotl64 c3 1
    let d3 := c2 ^^^ rotl64 c4 1
    let d4 := c3 ^^^ rotl64 c0 1
    let u0 := a0 ^^^ d0
    let u1 := rotl64 (a6 ^^^ d1) 44
    let u2 := rotl64 (a12 ^^^ d2) 43
    let u3 := rotl64 (a18 ^^^ d3) 21
    let u4 := rotl64 (a24 ^^^ d4) 14
    let u5 := rotl64 (a3 ^^^ d3) 28
    let u6 := rotl64 (a9 ^^^ d4) 20
    let u7 := rotl64 (a10 ^^^ d0) 3
    let u8 := rotl64 (a16 ^^^ d1) 45
    let u9 := rotl64 (a22 ^^^ d2) 61
    let u10 := rotl64 (a1 ^^^ d1) 1
    let u11 := rotl64 (a7 ^^^ d2) 6
    let u12 := rotl64 (a13 ^^^ d3) 25
    let u13 := rotl64 (a19 ^^^ d4) 8
    let u14 := rotl64 (a20 ^^^ d0) 18
    let u15 := rotl64 (a4 ^^^ d4) 27
    let u16 := rotl64 (a5 ^^^ d0) 36
    let u17 := rotl64 (a11 ^^^ d1) 10
    let u18 := rotl64 (a17 ^^^ d2) 15
    let u19 := rotl64 (a23 ^^^ d3) 56
    let u20 := rotl64 (a2 ^^^ d2) 62
    let u21 := rotl64 (a8 ^^^ d3) 55
    let u22 := rotl64 (a14 ^^^ d4) 39
    let u23 := rotl64 (a15 ^^^ d0) 41
    let u24 := rotl64 (a21 ^^^ d1) 2
    [(u0 ^^^ ((u1 ^^^ MASK64) &&& u2)) ^^^ rc,
     u1 ^^^ ((u2 ^^^ MASK64) &&& u3),
     u2 ^^^ ((u3 ^^^ MASK64) &&& u4),
     u3 ^^^ ((u4 ^^^ MASK64) &&& u0),
     u4 ^^^ ((u0 ^^^ MASK64) &&& u1),
     u5 ^^^ ((u6 ^^^ MASK64) &&& u7),
     u6 ^^^ ((u7 ^^^ MASK64) &&& u8),
     u7 ^^^ ((u8 ^^^ MASK64) &&& u9),
     u8 ^^^ ((u9 ^^^ MASK64) &&& u5),
     u9 ^^^ ((u5 ^^^ MASK64) &&& u6),
     u10 ^^^ ((u11 ^^^ MASK64) &&& u12),
     u11 ^^^ ((u12 ^^^ MASK64) &&& u13),
     u12 ^^^ ((u13 ^^^ MASK64) &&& u14),
     u13 ^^^ ((u14 ^^^ MASK64) &&& u10),
     u14 ^^^ ((u10 ^^^ MASK64) &&& u11),
     u15 ^^^ ((u16 ^^^ MASK64) &&& u17),
     u16 ^^^ ((u17 ^^^ MASK64) &&& u18),
     u17 ^^^ ((u18 ^^^ MASK64) &&& u19),
     u18 ^^^ ((u19 ^^^ MASK64) &&& u15),
     u19 ^^^ ((u15 ^^^ MASK64) &&& u16),
     u20 ^^^ ((u21 ^^^ MASK64) &&& u22),
     u21 ^^^ ((u22 ^^^ MASK64) &&& u23),
     u22 ^^^ ((u23 ^^^ MASK64) &&& u24),
     u23 ^^^ ((u24 ^^^ MASK64) &&& u20),
     u24 ^^^ ((u20 ^^^ MASK64) &&& u21)]
  | _ => []

/-- The full Keccak-f[1600] permutation (24 rounds). -/
def keccakF (s : List Nat) : List Nat := ROUND_CONSTANTS.foldl keccakRound s

/-- Original-Keccak multi-rate padding for rate 136 bytes (domain byte
`0x01`, final bit `0x80`; a single pad byte is `0x81`). -/
def pad101 (m : List Nat) : List Nat :=
  let padLen := 136 - m.length % 136
  if padLen = 1 then m ++ [0x81]
  else m ++ [0x01] ++ List.replicate (padLen - 2) 0 ++ [0x80]

/-- Little-endian bytes to a 64-bit lane. -/
def bytesToLane (bs : List Nat) : Nat := bs.foldr (fun b acc => acc * 256 + b) 0

/-- Split bytes into up to `n` 8-byte little-endian lanes. -/
def toLanes : Nat → List Nat → List Nat
  | 0, _ => []
  | _, [] => []
  | n + 1, bs => bytesToLane (bs.take 8) :: toLanes n (bs.drop 8)

/-- Absorb one 136-byte block into the state and permute. -/
def absorbBlock (s : List Nat) (block : List Nat) : List Nat :=
  let lanes := toLanes 17 block
  keccakF ((List.range 25).map fun l => s.getD l 0 ^^^ lanes.getD l 0)

/-- Absorb `n` consecutive 136-byte blocks. -/
def absorbAux : Nat → List Nat → List Nat → List Nat
  | 0, s, _ => s
  | n + 1, s, bs => absorbAux n (absorbBlock s (bs.take 136)) (bs.drop 136)

/-- Keccak-256 of a byte sequence: 32 output bytes (little-endian lanes
0–3 of the final state). -/
def keccak256 (m : List Nat) : List Nat :=
  let p := pad101 m
  let s := absorbAux (p.length / 136) (List.replicate 25 0) p
  (List.range 32).map fun i => (s.getD (i / 8) 0 >>> (8 * (i % 8))) % 256

/-! ## Strings, UTF-8, hex (collaborator utilities used by the crate) -/

/-- UTF-8 encoding of one Unicode scalar value. -/
def utf8Char (c : Nat) : List Nat :=
  if c < 0x80 then [c]
  else if c < 0x800 then [0xC0 ||| (c >>> 6), 0x80 ||| (c &&& 0x3F)]
  else if c < 0x10000 then
    [0xE0 ||| (c >>> 12), 0x80 ||| ((c >>> 6) &&& 0x3F), 0x80 ||| (c &&& 0x3F)]
  else
    [0xF0 ||| (c >>> 18), 0x80 ||| ((c >>> 12) &&& 0x3F),
     0x80 ||| ((c >>> 6) &&& 0x3F), 0x80 ||| (c &&& 0x3F)]

/-- `str::as_bytes`: UTF-8 bytes of a string (string = list of scalar
values). -/
def strBytes (s : List Nat) : List Nat := (s.map utf8Char).flatten

/-- `char::is_whitespace` (the Unicode `White_Space` property). -/
def isRustWhitespace (c : Nat) : Bool :=
  (c == 0x9) || (c == 0xA) || (c == 0xB) || (c == 0xC) || (c == 0xD) ||
  (c == 0x20) || (c == 0x85) || (c == 0xA0) || (c == 0x1680) ||
  (decide (0x2000 ≤ c) && decide (c ≤ 0x200A)) ||
  (c == 0x2028) || (c == 0x2029) || (c == 0x202F) || (c == 0x205F) ||
  (c == 0x3000)

/-- `str::trim`: drop whitespace from both ends. -/
def trimStr (s : List Nat) : List Nat :=
  ((s.dropWhile isRustWhitespace).reverse.dropWhile isRustWhitespace).reverse

/-- `char::is_ascii_hexdigit`. -/
def isAsciiHexdigit (c : Nat) : Bool :=
  (decide (48 ≤ c) && decide (c ≤ 57)) ||
  (decide (65 ≤ c) && decide (c ≤ 70)) ||
  (decide (97 ≤ c) && decide (c ≤ 102))

/-- One character of `str::to_lowercase`.  The crate only lowercases
strings already checked to be ASCII hex digits, where Unicode
lowercasing agrees with ASCII lowercasing. -/
def lowerChar (c : Nat) : Nat := if 65 ≤ c ∧ c ≤ 90 then c + 32 else c

/-- `str::to_lowercase` on ASCII strings. -/
def toLowercaseAscii (s : List Nat) : List Nat := s.map lowerChar

/-- Low hex digit character for a nibble. -/
def hexDigit (n : Nat) : Nat := if n < 10 then 48 + n else 87 + n

/-- `hex::encode`: lowercase hex string of a byte sequence. -/
def hexEncode (bs : List Nat) : List Nat :=
  (bs.map fun b => [hexDigit (b / 16), hexDigit (b % 16)]).flatten

/-- Value of one hex digit character (`0-9a-fA-F`), if any. -/
def hexVal (c : Nat) : Option Nat :=
  if 48 ≤ c ∧ c ≤ 57 then some (c - 48)
  else if 97 ≤ c ∧ c ≤ 102 then some (c - 87)
  else if 65 ≤ c ∧ c ≤ 70 then some (c - 55)
  else none

/-- `hex::decode`: fails on a stray digit or a non-hex character. -/
def hexDecode : List Nat → Option (List Nat)
  | [] => some []
  | [_] => none
  | c1 :: c2 :: rest =>
    match hexVal c1, hexVal c2, hexDecode rest with
    | some h, some l, some bs => some ((16 * h + l) :: bs)
    | _, _, _ => none

/-! ## Address derivation (`calc_addr_with_bytes`, `calc_addr`) -/

/-- The hard-coded `KECCAK256_PROXY_CHILD_BYTECODE` constant. -/
def KECCAK256_PROXY_CHILD_BYTECODE : List Nat :=
  [33, 195, 93, 190, 27, 52, 74, 36, 136, 207, 51, 33, 214, 206, 84, 47,
   142, 159, 48, 85, 68, 255, 9, 228, 153, 58, 98, 49, 154, 73, 124, 31]

/-- `calc_addr_with_bytes`: two-stage CREATE3 derivation.  The Rust
function receives `salt` as `&[u8; 32]`; here it is a list, with the
32-byte constraint carried by claims that need it. -/
def calc_addr_with_bytes (deployer : List Nat) (salt : List Nat) : List Nat :=
  let bytes := [0xff] ++ deployer ++ salt ++ KECCAK256_PROXY_CHILD_BYTECODE
  let hash := keccak256 bytes
  let proxy_bytes := hash.drop 12
  let bytes2 := [0xd6, 0x94] ++ proxy_bytes ++ [0x01]
  let hash2 := keccak256 bytes2
  hash2.drop 12

/-- `calc_addr`: hash the salt material, slice the first 32 bytes of the
digest (`[0..32].try_into()`), delegate. -/
def calc_addr (deployer : List Nat) (salt : List Nat) : List Nat :=
  let salt_hash := keccak256 salt
  calc_addr_with_bytes deployer (salt_hash.take 32)

/-! ## Spec-side formulation of the derivation (for claim C1)

These definitions follow the specification's words (Stage A buffer,
Stage B buffer, low 20 bytes) rather than the Rust code; C1 compares
them with `calc_addr_with_bytes`. -/

/-- Spec Stage A buffer: `0xFF || deployer || saltDigest || K`. -/
def stageA (d s : List Nat) : List Nat :=
  0xff :: (d ++ s ++ KECCAK256_PROXY_CHILD_BYTECODE)

/-- Spec: low 20 bytes of a 32-byte digest. -/
def low20 (h : List Nat) : List Nat := h.drop 12

/-- Spec Stage B buffer: `0xD6 || 0x94 || proxy || 0x01`. -/
def stageB (p : List Nat) : List Nat := [0xd6, 0x94] ++ p ++ [0x01]

/-- Spec `deriveFromDigest`: hash Stage A, take low 20 bytes, build
Stage B from them, hash, take low 20 bytes. -/
def deriveFromDigest_spec (d s : List Nat) : List Nat :=
  low20 (keccak256 (stageB (low20 (keccak256 (stageA d s)))))

/-! ## Prefix validation (`sanitize_prefix`) -/

/-- `sanitize_prefix`: trim, check the (byte) length against 20, check
that every character is an ASCII hex digit, lowercase. -/
def sanitize_prefix (pfx : List Nat) : Except Create3GenerateSaltError (List Nat) :=
  let t := trimStr pfx
  if 20 < (strBytes t).length then .error .PrefixTooLong
  else if !(t.all isAsciiHexdigit) then .error .PrefixNotHexEncoded
  else .ok (toLowercaseAscii t)

/-! ## Random candidate salts

`rand`'s `Alphanumeric` distribution samples uniformly from a fixed
62-character set.  The generator is an oracle `rng : Nat → Nat` of raw
draws; draw `d` selects character `ALPHANUMERIC[d % 62]`. -/

/-- The `Alphanumeric` character set (`A-Za-z0-9`), as scalar values. -/
def ALPHANUMERIC : List Nat :=
  (List.range 26).map (fun i => 65 + i) ++
  (List.range 26).map (fun i => 97 + i) ++
  (List.range 10).map (fun i => 48 + i)

/-- `rand::thread_rng().sample_iter(&Alphanumeric).take(len)`: the
`i`-th candidate's random string of length `len`. -/
def randomAlphanumeric (rng : Nat → Nat) (i len : Nat) : List Nat :=
  (List.range len).map fun j => ALPHANUMERIC.getD (rng (i * len + j) % 62) 65

/-- The digest computation shared by all search loops: the Rust code
hex-encodes `Keccak256(salt)`, decodes it back (`unwrap`), and copies
the bytes into the `[u8; 32]` result. -/
def digest_round_trip (bs : List Nat) : List Nat :=
  (hexDecode (hexEncode (keccak256 bs))).getD []

/-! ## Sequential search (`generate_salt`, `generate_salt_prefix`) -/

/-- The `loop` in `generate_salt`: candidate `i` is a fresh random
10-character string; on an address-prefix match return it with its
digest, otherwise continue.  `fuel` bounds the unbounded loop; `none`
means the loop is still running. -/
def generate_salt_loop (deployer : List Nat) (p : List Nat) (rng : Nat → Nat) :
    Nat → Nat → Option (List Nat × List Nat)
  | _, 0 => none
  | i, fuel + 1 =>
    let salt := randomAlphanumeric rng i 10
    let vanity_addr := hexEncode (calc_addr deployer (strBytes salt))
    if p.isPrefixOf vanity_addr then some (salt, digest_round_trip (strBytes salt))
    else generate_salt_loop deployer p rng (i + 1) fuel

/-- `generate_salt`: validate the prefix, then search. -/
def generate_salt (deployer : List Nat) (pfx : List Nat) (rng : Nat → Nat)
    (fuel : Nat) :
    Except Create3GenerateSaltError (Option (List Nat × List Nat)) :=
  match sanitize_prefix pfx with
  | .error e => .error e
  | .ok p => .ok (generate_salt_loop deployer p rng 0 fuel)

/-- Candidate salt of the salt-prefix variants: the fixed literal
followed by a fresh random 7-character string. -/
def saltWithLiteral (sp : List Nat) (rng : Nat → Nat) (i : Nat) : List Nat :=
  sp ++ randomAlphanumeric rng i 7

/-- The `loop` in `generate_salt_prefix`. -/
def generate_salt_prefix_loop (deployer : List Nat) (sp p : List Nat)
    (rng : Nat → Nat) : Nat → Nat → Option (List Nat × List Nat)
  | _, 0 => none
  | i, fuel + 1 =>
    let salt := saltWithLiteral sp rng i
    let vanity_addr := hexEncode (calc_addr deployer (strBytes salt))
    if p.isPrefixOf vanity_addr then some (salt, digest_round_trip (strBytes salt))
    else generate_salt_prefix_loop deployer sp p rng (i + 1) fuel

/-- `generate_salt_prefix`: validate the prefix, then search with the
fixed salt literal. -/
def generate_salt_prefix (deployer : List Nat) (sp : List Nat) (pfx : List Nat)
    (rng : Nat → Nat) (fuel : Nat) :
    Except Create3GenerateSaltError (Option (List Nat × List Nat)) :=
  match sanitize_prefix pfx with
  | .error e => .error e
  | .ok p => .ok (generate_salt_prefix_loop deployer sp p rng 0 fuel)

/-! ## Multithreaded search

The worker threads of `generate_salt_prefix_multithread` share one
`RwLock`-guarded slot, initially `("", [0u8; 32])`.  The model is a
step function on an explicit state, driven by a schedule of worker
ids.  A loop iteration of a worker is split into the two atomic pieces
separated by its lock operations: the read-and-decide part (sample a
candidate, give up if the slot is already taken, otherwise either keep
looping or go to the write) and the write part (store the match
unconditionally — this preserves the documented overwrite race).  The
`try_read` failure branch of the Rust loop can only fire while another
worker holds the write lock; writes are atomic steps here, so that
branch has no counterpart. -/

/-- Local state of one worker thread: next candidate index, a matched
salt waiting for the write lock, and whether the thread finished. -/
structure WorkerState where
  mk ::
  idx : Nat
  pending : Option (List Nat)
  done : Bool
  deriving DecidableEq, Repr

/-- A worker that has just been spawned. -/
def initWorker : WorkerState := WorkerState.mk 0 none false

/-- The slot's initial value `("".to_owned(), [0; 32])`. -/
def initSlot : List Nat × List Nat := ([], List.replicate 32 0)

/-- One atomic step of one worker against the shared slot. -/
def stepWorker (deployer : List Nat) (sp p : List Nat) (rng : Nat → Nat)
    (slot : List Nat × List Nat) (w : WorkerState) :
    (List Nat × List Nat) × WorkerState :=
  if w.done then (slot, w)
  else
    match w.pending with
    | some salt =>
      ((salt, digest_round_trip (strBytes salt)), WorkerState.mk w.idx none true)
    | none =>
      let salt := saltWithLiteral sp rng w.idx
      let vanity_addr := hexEncode (calc_addr deployer (strBytes salt))
      if 0 < slot.1.length then (slot, WorkerState.mk w.idx none true)
      else if !(p.isPrefixOf vanity_addr) then
        (slot, WorkerState.mk (w.idx + 1) none false)
      else (slot, WorkerState.mk w.idx (some salt) false)

/-- The whole search state: shared slot plus every worker's state. -/
structure SearchState where
  mk ::
  slot : List Nat × List Nat
  workers : List WorkerState
  deriving DecidableEq, Repr

/-- State right after spawning `thread_count` workers. -/
def initSearch (thread_count : Nat) : SearchState :=
  SearchState.mk initSlot (List.replicate thread_count initWorker)

/-- Let worker `wid` take one step (out-of-range ids do nothing; each
worker `wid` owns the rng stream `rngs wid`). -/
def stepSearch (deployer : List Nat) (sp p : List Nat) (rngs : Nat → Nat → Nat)
    (st : SearchState) (wid : Nat) : SearchState :=
  match st.workers.get? wid with
  | none => st
  | some w =>
    let r := stepWorker deployer sp p (rngs wid) st.slot w
    SearchState.mk r.1 (st.workers.set wid r.2)

/-- Run a whole schedule of worker steps. -/
def runSearch (deployer : List Nat) (sp p : List Nat) (rngs : Nat → Nat → Nat)
    (st : SearchState) : List Nat → SearchState
  | [] => st
  | wid :: rest => runSearch deployer sp p rngs (stepSearch deployer sp p rngs st wid) rest

/-- Has every worker terminated (so that every `join` has returned)? -/
def allDone (st : SearchState) : Bool := st.workers.all (fun w => w.done)

/-- `generate_salt_prefix_multithread`: validate the prefix before any
worker exists, spawn `thread_count` workers, run the schedule; the
coordinator reads the slot only after joining every worker — `none`
stands for a coordinator still blocked in `join`. -/
def generate_salt_prefix_multithread (deployer : List Nat) (sp : List Nat)
    (pfx : List Nat) (rngs : Nat → Nat → Nat) (thread_count : Nat)
    (sched : List Nat) :
    Except Create3GenerateSaltError (Option (List Nat × List Nat)) :=
  match sanitize_prefix pfx with
  | .error e => .error e
  | .ok p =>
    let final := runSearch deployer sp p rngs (initSearch thread_count) sched
    if allDone final then .ok (some final.slot) else .ok none

/-- `generate_salt_multithread` forwards an empty salt prefix. -/
def generate_salt_multithread (deployer : List Nat) (pfx : List Nat)
    (rngs : Nat → Nat → Nat) (thread_count : Nat) (sched : List Nat) :
    Except Create3GenerateSaltError (Option (List Nat × List Nat)) :=
  generate_salt_prefix_multithread deployer [] pfx rngs thread_count sched

/-! ## Basic facts about the embedded primitives -/

/-- Keccak-256 always produces exactly 32 bytes. -/
theorem keccak256_length (m : List Nat) : (keccak256 m).length = 32 := by
  simp [keccak256]

/-- Keccak-256 output entries are bytes. -/
theorem keccak256_lt (m : List Nat) : ∀ b ∈ keccak256 m, b < 256 := by
  intro b hb
  simp only [keccak256, List.mem_map] at hb
  obtain ⟨i, -, rfl⟩ := hb
  exact Nat.mod_lt _ (by norm_num)

/-- Decoding an encoded nibble. -/
theorem hexVal_hexDigit : ∀ n < 16, hexVal (hexDigit n) = some n := by decide

/-- `hex::decode` inverts `hex::encode` on byte sequences. -/
theorem hexDecode_hexEncode (bs : List Nat) (h : ∀ b ∈ bs, b < 256) :
    hexDecode (hexEncode bs) = some bs := by
  induction bs with
  | nil => rfl
  | cons b bs ih =>
    have hb : b < 256 := h b (List.mem_cons_self b bs)
    have h1 : hexVal (hexDigit (b / 16)) = some (b / 16) :=
      hexVal_hexDigit _ (by omega)
    have h2 : hexVal (hexDigit (b % 16)) = some (b % 16) :=
      hexVal_hexDigit _ (by omega)
    have ih' := ih fun x hx => h x (List.mem_cons_of_mem _ hx)
    simp only [hexEncode, List.map_cons, List.flatten_cons, List.cons_append,
      List.nil_append] at ih' ⊢
    rw [hexDecode, h1, h2, ih']
    simp only [Option.some.injEq, List.cons.injEq]
    exact ⟨by omega, trivial⟩

/-- The digest round trip in the search loops is just Keccak-256. -/
theorem digest_round_trip_eq (bs : List Nat) :
    digest_round_trip bs = keccak256 bs := by
  unfold digest_round_trip
  rw [hexDecode_hexEncode _ (keccak256_lt bs)]
  rfl

/-- A random string has the requested length. -/
theorem randomAlphanumeric_length (rng : Nat → Nat) (i len : Nat) :
    (randomAlphanumeric rng i len).length = len := by
  simp [randomAlphanumeric]

/-- Indexing the alphanumeric charset in range stays in the charset. -/
theorem alphanumeric_getD_mem : ∀ k < 62, ALPHANUMERIC.getD k 65 ∈ ALPHANUMERIC := by
  decide

/-- Every character of a random string is alphanumeric. -/
theorem randomAlphanumeric_mem (rng : Nat → Nat) (i len : Nat) :
    ∀ c ∈ randomAlphanumeric rng i len, c ∈ ALPHANUMERIC := by
  intro c hc
  simp only [randomAlphanumeric, List.mem_map] at hc
  obtain ⟨j, -, rfl⟩ := hc
  exact alphanumeric_getD_mem _ (Nat.mod_lt _ (by norm_num))

/-- Candidate salts of the salt-prefix variants are never empty. -/
theorem saltWithLiteral_ne_nil (sp : List Nat) (rng : Nat → Nat) (i : Nat) :
    saltWithLiteral sp rng i ≠ [] := by
  intro h
  have := congrArg List.length h
  simp [saltWithLiteral, randomAlphanumeric_length] at this

/-- The salt literal is a prefix of every candidate. -/
theorem saltWithLiteral_isPrefixOf (sp : List Nat) (rng : Nat → Nat) (i : Nat) :
    sp.isPrefixOf (saltWithLiteral sp rng i) = true := by
  rw [ List.isPrefixOf_iff_prefix]
  exact List.prefix_append sp _

/-! ## Soundness of the sequential search loops -/

/-- Any result of `generate_salt`'s loop matches the prefix, carries the
digest of its own salt, and is the candidate at some index. -/
theorem generate_salt_loop_sound (d p : List Nat) (rng : Nat → Nat) :
    ∀ fuel i salt dg, generate_salt_loop d p rng i fuel = some (salt, dg) →
      p.isPrefixOf (hexEncode (calc_addr d (strBytes salt))) = true ∧
      dg = keccak256 (strBytes salt) ∧
      ∃ j, salt = randomAlphanumeric rng j 10 := by
  intro fuel
  induction fuel with
  | zero => intro i salt dg h; simp [generate_salt_loop] at h
  | succ n ih =>
    intro i salt dg h
    rw [generate_salt_loop] at h
    split at h
    · rename_i hmatch
      obtain ⟨rfl, rfl⟩ :
          randomAlphanumeric rng i 10 = salt ∧
          digest_round_trip (strBytes (randomAlphanumeric rng i 10)) = dg := by
        simpa using h
      exact ⟨hmatch, digest_round_trip_eq _, i, rfl⟩
    · exact ih (i + 1) salt dg h

/-- Same for `generate_salt_prefix`'s loop, with the literal-prefixed
candidates. -/
theorem generate_salt_prefix_loop_sound (d sp p : List Nat) (rng : Nat → Nat) :
    ∀ fuel i salt dg, generate_salt_prefix_loop d sp p rng i fuel = some (salt, dg) →
      p.isPrefixOf (hexEncode (calc_addr d (strBytes salt))) = true ∧
      dg = keccak256 (strBytes salt) ∧
      ∃ j, salt = saltWithLiteral sp rng j := by
  intro fuel
  induction fuel with
  | zero => intro i salt dg h; simp [generate_salt_prefix_loop] at h
  | succ n ih =>
    intro i salt dg h
    rw [generate_salt_prefix_loop] at h
    split at h
    · rename_i hmatch
      obtain ⟨rfl, rfl⟩ :
          saltWithLiteral sp rng i = salt ∧
          digest_round_trip (strBytes (saltWithLiteral sp rng i)) = dg := by
        simpa using h
      exact ⟨hmatch, digest_round_trip_eq _, i, rfl⟩
    · exact ih (i + 1) salt dg h

/-! ## Facts about prefix validation and error propagation -/

/-- The three mutually exclusive outcomes of `sanitize_prefix`, decided
by the byte length of the trimmed prefix and its characters. -/
theorem sanitize_prefix_cases (pfx : List Nat) :
    ( sanitize_prefix pfx = .error .PrefixTooLong ↔
      20 < (strBytes (trimStr pfx)).length) ∧
    ( sanitize_prefix pfx = .error .PrefixNotHexEncoded ↔
      (strBytes (trimStr pfx)).length ≤ 20 ∧
        ∃ c ∈ trimStr pfx, ¬ isAsciiHexdigit c) ∧
    ((strBytes (trimStr pfx)).length ≤ 20 →
      (∀ c ∈ trimStr pfx, isAsciiHexdigit c) →
      sanitize_prefix pfx = .ok (toLowercaseAscii (trimStr pfx))) := by
  have hdef : sanitize_prefix pfx =
      if 20 < (strBytes (trimStr pfx)).length then .error .PrefixTooLong
      else if !((trimStr pfx).all isAsciiHexdigit) then .error .PrefixNotHexEncoded
      else .ok (toLowercaseAscii (trimStr pfx)) := rfl
  by_cases h1 : 20 < (strBytes (trimStr pfx)).length
  · have hs : sanitize_prefix pfx = .error .PrefixTooLong := by
      simp [hdef, h1]
    rw [hs]
    refine ⟨by simp [h1], ?_, fun hle => by omega⟩
    constructor
    · intro h; exact absurd h (by simp)
    · intro hc; omega
  · by_cases h2 : (trimStr pfx).all isAsciiHexdigit
    · have h2' : ∀ c ∈ trimStr pfx, isAsciiHexdigit c := by
        simpa [List.all_eq_true] using h2
      have hs : sanitize_prefix pfx = .ok (toLowercaseAscii (trimStr pfx)) := by
        simp [hdef, h1, h2]
      rw [hs]
      refine ⟨by simp; omega, ?_, fun _ _ => rfl⟩
      constructor
      · intro h; exact absurd h (by simp)
      · rintro ⟨-, c, hc, hhex⟩; exact absurd (h2' c hc) hhex
    · have h2' : ∃ c ∈ trimStr pfx, ¬ isAsciiHexdigit c := by
        rw [List.all_eq_true] at h2
        push_neg at h2
        simpa using h2
      have hs : sanitize_prefix pfx = .error .PrefixNotHexEncoded := by
        simp [hdef, h1, h2]
      rw [hs]
      refine ⟨?_, ?_, ?_⟩
      · constructor
        · intro h; exact absurd h (by simp)
        · intro hc; omega
      · simp only [true_iff]
        exact ⟨by omega, h2'⟩
      · intro _ hall
        obtain ⟨c, hc, hhex⟩ := h2'
        exact absurd (hall c hc) hhex

/-- `generate_salt` fails exactly when `sanitize_prefix` fails, with the
same error, independently of the random stream and the fuel. -/
theorem generate_salt_error_iff (d pfx : List Nat) (rng : Nat → Nat)
    (fuel : Nat) (e : Create3GenerateSaltError) :
    generate_salt d pfx rng fuel = .error e ↔ sanitize_prefix pfx = .error e := by
  unfold generate_salt
  cases h : sanitize_prefix pfx <;> simp [h]

/-- Same for `generate_salt_prefix`. -/
theorem generate_salt_prefix_error_iff (d sp pfx : List Nat) (rng : Nat → Nat)
    (fuel : Nat) (e : Create3GenerateSaltError) :
    generate_salt_prefix d sp pfx rng fuel = .error e ↔
      sanitize_prefix pfx = .error e := by
  unfold generate_salt_prefix
  cases h : sanitize_prefix pfx <;> simp [h]

/-- Same for `generate_salt_prefix_multithread`, independently of the
workers' random streams, the thread count and the schedule. -/
theorem generate_salt_prefix_multithread_error_iff (d sp pfx : List Nat)
    (rngs : Nat → Nat → Nat) (thread_count : Nat) (sched : List Nat)
    (e : Create3GenerateSaltError) :
    generate_salt_prefix_multithread d sp pfx rngs thread_count sched = .error e ↔
      sanitize_prefix pfx = .error e := by
  unfold generate_salt_prefix_multithread
  cases h : sanitize_prefix pfx
  · simp [h]
  · simp only [h]
    constructor
    · intro hc
      split at hc <;> exact absurd hc (by simp)
    · intro hc; exact absurd hc (by simp)

/-- Same for `generate_salt_multithread`. -/
theorem generate_salt_multithread_error_iff (d pfx : List Nat)
    (rngs : Nat → Nat → Nat) (thread_count : Nat) (sched : List Nat)
    (e : Create3GenerateSaltError) :
    generate_salt_multithread d pfx rngs thread_count sched = .error e ↔
      sanitize_prefix pfx = .error e :=
  generate_salt_prefix_multithread_error_iff d [] pfx rngs thread_count sched e

/-! ## Soundness of the multithreaded search -/

/-- A salt a worker may legitimately write: its address matches the
validated prefix, and it is the salt literal followed by a 7-character
alphanumeric suffix. -/
def goodSalt (d sp p salt : List Nat) : Prop :=
  p.isPrefixOf (hexEncode (calc_addr d (strBytes salt))) = true ∧
  ∃ suf, salt = sp ++ suf ∧ suf.length = 7 ∧ ∀ c ∈ suf, c ∈ ALPHANUMERIC

/-- Invariant of the shared slot: still initial, or a good write. -/
def SlotInv (d sp p : List Nat) (slot : List Nat × List Nat) : Prop :=
  slot = initSlot ∨
    (slot.1 ≠ [] ∧ goodSalt d sp p slot.1 ∧
      slot.2 = digest_round_trip (strBytes slot.1))

/-- Invariant of one worker: a pending salt is always good, and a
finished worker has seen a non-initial slot. -/
def WorkerInv (d sp p : List Nat) (slot : List Nat × List Nat)
    (w : WorkerState) : Prop :=
  (∀ s, w.pending = some s → goodSalt d sp p s) ∧
  (w.done = true → slot ≠ initSlot)

/-- The whole search-state invariant. -/
def SearchInv (d sp p : List Nat) (st : SearchState) : Prop :=
  SlotInv d sp p st.slot ∧ ∀ w ∈ st.workers, WorkerInv d sp p st.slot w

/-- Good salts are non-empty. -/
theorem goodSalt_ne_nil {d sp p salt : List Nat} (h : goodSalt d sp p salt) :
    salt ≠ [] := by
  obtain ⟨-, suf, rfl, hlen, -⟩ := h
  intro hc
  have := congrArg List.length hc
  simp [hlen] at this

/-- The invariant holds right after spawning. -/
theorem searchInv_init (d sp p : List Nat) (thread_count : Nat) :
    SearchInv d sp p (initSearch thread_count) := by
  refine ⟨Or.inl rfl, ?_⟩
  intro w hw
  rw [initSearch] at hw
  have hw' := List.eq_of_mem_replicate hw
  subst hw'
  exact ⟨fun s hs => by simp [initWorker] at hs, fun hd => by simp [initWorker] at hd⟩

/-- One worker step preserves the invariant. -/
theorem stepSearch_inv (d sp p : List Nat) (rngs : Nat → Nat → Nat)
    (st : SearchState) (wid : Nat) (h : SearchInv d sp p st) :
    SearchInv d sp p (stepSearch d sp p rngs st wid) := by
  obtain ⟨hslot, hworkers⟩ := h
  unfold stepSearch
  cases hget : st.workers.get? wid with
  | none => exact ⟨hslot, hworkers⟩
  | some w =>
    have hwmem : w ∈ st.workers := List.get?_mem hget
    have hw := hworkers w hwmem
    unfold stepWorker
    by_cases hdone : w.done
    · simp only [hdone, if_true]
      refine ⟨hslot, ?_⟩
      intro w' hw'
      rcases List.mem_or_eq_of_mem_set hw' with hmem | rfl
      · exact hworkers w' hmem
      · exact hw
    · simp only [hdone, if_false, Bool.false_eq_true]
      cases hpend : w.pending with
      | some salt =>
        have hgood : goodSalt d sp p salt := hw.1 salt hpend
        have hne : salt ≠ [] := goodSalt_ne_nil hgood
        have hslotne : (salt, digest_round_trip (strBytes salt)) ≠ initSlot := by
          intro hc
          exact hne (congrArg Prod.fst hc)
        refine ⟨Or.inr ⟨hne, hgood, rfl⟩, ?_⟩
        intro w' hw'
        rcases List.mem_or_eq_of_mem_set hw' with hmem | rfl
        · exact ⟨(hworkers w' hmem).1, fun _ => hslotne⟩
        · exact ⟨fun s hs => by simp at hs, fun _ => hslotne⟩
      | none =>
        by_cases htaken : 0 < st.slot.1.length
        · simp only [htaken, if_true]
          have hslotne : st.slot ≠ initSlot := by
            intro hc
            rw [hc] at htaken
            simp [initSlot] at htaken
          refine ⟨hslot, ?_⟩
          intro w' hw'
          rcases List.mem_or_eq_of_mem_set hw' with hmem | rfl
          · exact ⟨(hworkers w' hmem).1, fun _ => hslotne⟩
          · exact ⟨fun s hs => by simp at hs, fun _ => hslotne⟩
        · simp only [htaken, if_false]
          by_cases hmatch :
              p.isPrefixOf (hexEncode (calc_addr d
                (strBytes (saltWithLiteral sp (rngs wid) w.idx)))) = true
          · simp only [hmatch, Bool.not_true, if_false, Bool.false_eq_true]
            refine ⟨hslot, ?_⟩
            intro w' hw'
            rcases List.mem_or_eq_of_mem_set hw' with hmem | rfl
            · exact hworkers w' hmem
            · refine ⟨?_, fun hd => by simp at hd⟩
              intro s hs
              simp only [Option.some.injEq] at hs
              subst hs
              exact ⟨hmatch, randomAlphanumeric (rngs wid) w.idx 7, rfl,
                randomAlphanumeric_length _ _ _, randomAlphanumeric_mem _ _ _⟩
          · simp only [Bool.not_eq_true] at hmatch
            simp only [hmatch, Bool.not_false, if_true]
            refine ⟨hslot, ?_⟩
            intro w' hw'
            rcases List.mem_or_eq_of_mem_set hw' with hmem | rfl
            · exact hworkers w' hmem
            · exact ⟨fun s hs => by simp at hs, fun hd => by simp at hd⟩

/-- Running a schedule preserves the invariant. -/
theorem runSearch_inv (d sp p : List Nat) (rngs : Nat → Nat → Nat) :
    ∀ sched st, SearchInv d sp p st →
      SearchInv d sp p (runSearch d sp p rngs st sched) := by
  intro sched
  induction sched with
  | nil => intro st h; exact h
  | cons wid rest ih =>
    intro st h
    exact ih _ (stepSearch_inv d sp p rngs st wid h)

/-- Steps never change the number of workers. -/
theorem runSearch_workers_length (d sp p : List Nat) (rngs : Nat → Nat → Nat) :
    ∀ sched st, (runSearch d sp p rngs st sched).workers.length =
      st.workers.length := by
  intro sched
  induction sched with
  | nil => intro st; rfl
  | cons wid rest ih =>
    intro st
    rw [runSearch, ih]
    unfold stepSearch
    cases hget : st.workers.get? wid
    · rfl
    · simp

/-- Any value the coordinator of the multithreaded search returns after
joining at least one worker is a good salt with its own digest. -/
theorem multithread_sound (d sp pfx p : List Nat) (rngs : Nat → Nat → Nat)
    (thread_count : Nat) (sched : List Nat) (r : List Nat × List Nat)
    (hp : sanitize_prefix pfx = .ok p) (hW : 1 ≤ thread_count)
    (h : generate_salt_prefix_multithread d sp pfx rngs thread_count sched =
      .ok (some r)) :
    goodSalt d sp p r.1 ∧ r.2 = keccak256 (strBytes r.1) := by
  unfold generate_salt_prefix_multithread at h
  rw [hp] at h
  simp only at h
  set final := runSearch d sp p rngs (initSearch thread_count) sched with hfinal
  by_cases hall : allDone final
  · rw [if_pos hall] at h
    have hr : final.slot = r := by simpa using h
    have hinv : SearchInv d sp p final :=
      runSearch_inv d sp p rngs sched _ (searchInv_init d sp p thread_count)
    have hlen : final.workers.length = thread_count := by
      rw [hfinal, runSearch_workers_length]
      simp [initSearch]
    have hne : final.workers ≠ [] := by
      intro hc
      rw [hc] at hlen
      simp at hlen
      omega
    obtain ⟨w, hwmem⟩ := List.exists_mem_of_ne_nil final.workers hne
    have hwdone : w.done = true := by
      have := (List.all_eq_true.mp hall) w hwmem
      simpa using this
    have hslotne : final.slot ≠ initSlot := (hinv.2 w hwmem).2 hwdone
    rcases hinv.1 with hc | ⟨-, hgood, hdg⟩
    · exact absurd hc hslotne
    · rw [hr] at hgood hdg
      exact ⟨hgood, by rw [hdg, digest_round_trip_eq]⟩
  · rw [if_neg hall] at h
    exact absurd h (by simp)

/-- Steps do nothing when there are no workers. -/
theorem runSearch_no_workers (d sp p : List Nat) (rngs : Nat → Nat → Nat) :
    ∀ sched st, st.workers = [] → runSearch d sp p rngs st sched = st := by
  intro sched
  induction sched with
  | nil => intro st _; rfl
  | cons wid rest ih =>
    intro st hst
    rw [runSearch]
    have hstep : stepSearch d sp p rngs st wid = st := by
      unfold stepSearch
      rw [hst]
      rfl
    rw [hstep]
    exact ih st hst

/-! ## Concrete random streams used in closed statements -/

/-- The all-zero raw-draw stream (every sampled character is `A`). -/
def rngZero : Nat → Nat := fun _ => 0

/-- Per-worker streams where worker `w` always draws `w`. -/
def rngById : Nat → Nat → Nat := fun w _ => w

/-- The deployer of the crate's known-answer tests,
`0fC5025C764cE34df352757e82f7B5c4Df39A836`. -/
def vectorDeployer : List Nat :=
  [0x0f, 0xc5, 0x02, 0x5c, 0x76, 0x4c, 0xe3, 0x4d, 0xf3, 0x52,
   0x75, 0x7e, 0x82, 0xf7, 0xb5, 0xc4, 0xdf, 0x39, 0xa8, 0x36]

/-! ## The claims -/

/-- Claim C1: for every deployer byte sequence `d` and 32-byte salt
digest `s`, `calc_addr_with_bytes d s` is the low 20 bytes of
`Keccak256(0xd6 || 0x94 || p || 0x01)` where `p` is the low 20 bytes of
`Keccak256(0xff || d || s || K)` and `K` is the hard-coded proxy-child
bytecode digest; the Stage A buffer has `1 + len d + 32 + 32` bytes and
the Stage B buffer has 23 bytes. -/
theorem claim_C1_two_stage_derivation (d s : List Nat) (hs : s.length = 32) :
    calc_addr_with_bytes d s = deriveFromDigest_spec d s ∧
    (stageA d s).length = 1 + d.length + 32 + 32 ∧
    (stageB (low20 (keccak256 (stageA d s)))).length = 23 := by
  have hK : KECCAK256_PROXY_CHILD_BYTECODE.length = 32 := rfl
  refine ⟨?_, ?_, ?_⟩
  · simp [calc_addr_with_bytes, deriveFromDigest_spec, stageA, stageB, low20]
  · simp [stageA, hs, hK]
    omega
  · simp [stageB, low20, keccak256_length]

/-- Witness for C1 at a concrete 32-byte salt. -/
theorem claim_C1_two_stage_derivation_witness :
    calc_addr_with_bytes [] (List.replicate 32 0) =
      deriveFromDigest_spec [] (List.replicate 32 0) ∧
    (stageA [] (List.replicate 32 0)).length = 1 + ([] : List Nat).length + 32 + 32 ∧
    (stageB (low20 (keccak256 (stageA [] (List.replicate 32 0))))).length = 23 :=
  claim_C1_two_stage_derivation [] (List.replicate 32 0) (by simp)

/-- Claim C2: `calc_addr d m` equals `calc_addr_with_bytes d
(Keccak256 m)` for every deployer and salt material. -/
theorem claim_C2_material_digest_equivalence (d m : List Nat) :
    calc_addr d m = calc_addr_with_bytes d (keccak256 m) := by
  have h : (keccak256 m).take 32 = keccak256 m := by
    rw [← keccak256_length m]
    exact List.take_length (keccak256 m)
  show calc_addr_with_bytes d ((keccak256 m).take 32) = _
  rw [h]

/-- Claim C9: the derivation functions are total on every input length
and always return 20 bytes. -/
theorem claim_C9_total_20_bytes (d s : List Nat) :
    (calc_addr_with_bytes d s).length = 20 ∧
    (∀ b ∈ calc_addr_with_bytes d s, b < 256) ∧
    (calc_addr d s).length = 20 ∧
    (∀ b ∈ calc_addr d s, b < 256) := by
  have h1 : ∀ x : List Nat, (calc_addr_with_bytes d x).length = 20 := by
    intro x
    simp [calc_addr_with_bytes, keccak256_length]
  have h2 : ∀ x : List Nat, ∀ b ∈ calc_addr_with_bytes d x, b < 256 := by
    intro x b hb
    simp only [calc_addr_with_bytes] at hb
    exact keccak256_lt _ b (List.drop_subset _ _ hb)
  exact ⟨h1 s, h2 s, h1 ((keccak256 s).take 32), h2 ((keccak256 s).take 32)⟩

set_option maxRecDepth 100000

set_option maxHeartbeats 2000000

/-- Claim C7: known-answer vectors — for the deployer
`0fC5025C764cE34df352757e82f7B5c4Df39A836`, the salts `"a"`, `"b"` and
`"c"` derive the addresses `bff4…b46a`, `7e10…35b8` and `70b5…805c`. -/
theorem claim_C7_known_vectors :
    calc_addr vectorDeployer (strBytes [97]) =
      [0xbf, 0xf4, 0x74, 0x40, 0xd3, 0xa5, 0xe5, 0x97, 0x14, 0xf1,
       0xd9, 0x95, 0xf8, 0xb1, 0x05, 0xe2, 0xa0, 0x4a, 0xb4, 0x6a] ∧
    calc_addr vectorDeployer (strBytes [98]) =
      [0x7e, 0x10, 0xca, 0x8f, 0xa1, 0xc8, 0xe1, 0x52, 0x86, 0x01,
       0xfe, 0xa8, 0x2f, 0x51, 0x64, 0x61, 0x82, 0xf8, 0x35, 0xb8] ∧
    calc_addr vectorDeployer (strBytes [99]) =
      [0x70, 0xb5, 0x56, 0x54, 0x8f, 0xf0, 0x16, 0x10, 0x82, 0xfb,
       0x75, 0x1d, 0x5e, 0x37, 0x2e, 0xfa, 0x01, 0x33, 0x80, 0x5c] := by
  refine ⟨by decide, by decide, by decide⟩

/-- Claim C3: whenever `generate_salt` or `generate_salt_prefix`
returns `Ok (salt, digest)`, the (lowercase) hex encoding of
`calc_addr deployer salt` starts with the sanitized prefix, and
`digest = Keccak256 salt`. -/
theorem claim_C3_search_results_satisfy (d pfx sp p : List Nat)
    (rng : Nat → Nat) (fuel : Nat) (salt dg : List Nat)
    (hp : sanitize_prefix pfx = .ok p) :
    (generate_salt d pfx rng fuel = .ok (some (salt, dg)) →
      p.isPrefixOf (hexEncode (calc_addr d (strBytes salt))) = true ∧
      dg = keccak256 (strBytes salt)) ∧
    ( generate_salt_prefix d sp pfx rng fuel = .ok (some (salt, dg)) →
      p.isPrefixOf (hexEncode (calc_addr d (strBytes salt))) = true ∧
      dg = keccak256 (strBytes salt)) := by
  constructor
  · intro h
    unfold generate_salt at h
    rw [hp] at h
    simp only [Except.ok.injEq] at h
    have hs := generate_salt_loop_sound d p rng fuel 0 salt dg h
    exact ⟨hs.1, hs.2.1⟩
  · intro h
    unfold generate_salt_prefix at h
    rw [hp] at h
    simp only [Except.ok.injEq] at h
    have hs := generate_salt_prefix_loop_sound d sp p rng fuel 0 salt dg h
    exact ⟨hs.1, hs.2.1⟩

/-- Witness for C3: a concrete one-candidate run with the empty
prefix. -/
theorem claim_C3_search_results_satisfy_witness :
    ([] : List Nat).isPrefixOf
      (hexEncode (calc_addr [] (strBytes (randomAlphanumeric rngZero 0 10)))) = true ∧
    keccak256 (strBytes (randomAlphanumeric rngZero 0 10)) =
      keccak256 (strBytes (randomAlphanumeric rngZero 0 10)) :=
  (claim_C3_search_results_satisfy [] [] [] [] rngZero 1
    (randomAlphanumeric rngZero 0 10)
    (keccak256 (strBytes (randomAlphanumeric rngZero 0 10))) rfl).1 (by rfl)

/-- Claim C4: the validation boundary — `PrefixTooLong` exactly when
the trimmed prefix has byte length above 20, `PrefixNotHexEncoded`
exactly when it is short enough but has a non-hex character, success
otherwise; every entry point surfaces exactly the `sanitize_prefix`
error, independently of the random streams, the fuel, the thread count
and the schedule (the error precedes all search work). -/
theorem claim_C4_validation_boundary (pfx : List Nat) :
    ( sanitize_prefix pfx = .error .PrefixTooLong ↔
      20 < (strBytes (trimStr pfx)).length) ∧
    ( sanitize_prefix pfx = .error .PrefixNotHexEncoded ↔
      (strBytes (trimStr pfx)).length ≤ 20 ∧
        ∃ c ∈ trimStr pfx, ¬ isAsciiHexdigit c) ∧
    ((strBytes (trimStr pfx)).length ≤ 20 →
      (∀ c ∈ trimStr pfx, isAsciiHexdigit c) →
      sanitize_prefix pfx = .ok (toLowercaseAscii (trimStr pfx))) ∧
    (∀ d rng fuel e, generate_salt d pfx rng fuel = .error e ↔
      sanitize_prefix pfx = .error e) ∧
    (∀ d sp rng fuel e, generate_salt_prefix d sp pfx rng fuel = .error e ↔
      sanitize_prefix pfx = .error e) ∧
    (∀ d rngs tc sched e, generate_salt_multithread d pfx rngs tc sched = .error e ↔
      sanitize_prefix pfx = .error e) ∧
    (∀ d sp rngs tc sched e,
      generate_salt_prefix_multithread d sp pfx rngs tc sched = .error e ↔
      sanitize_prefix pfx = .error e) := by
  obtain ⟨h1, h2, h3⟩ := sanitize_prefix_cases pfx
  exact ⟨h1, h2, h3,
    fun d rng fuel e => generate_salt_error_iff d pfx rng fuel e,
    fun d sp rng fuel e => generate_salt_prefix_error_iff d sp pfx rng fuel e,
    fun d rngs tc sched e =>
      generate_salt_multithread_error_iff d pfx rngs tc sched e,
    fun d sp rngs tc sched e =>
      generate_salt_prefix_multithread_error_iff d sp pfx rngs tc sched e⟩

/-- Witness for C4: the non-hex prefix `"g"` fails with
`PrefixNotHexEncoded` before any search work. -/
theorem claim_C4_validation_boundary_witness :
    generate_salt [] [103] rngZero 0 = .error .PrefixNotHexEncoded :=
  ((claim_C4_validation_boundary [103]).2.2.2.1 [] rngZero 0
    .PrefixNotHexEncoded).mpr (by rfl)

/-- Claim C8: a prefix that trims to the empty string validates, and
the search accepts the very first candidate: with any fuel the result
is the candidate of index 0, and one unit of fuel already suffices. -/
theorem claim_C8_empty_prefix_first_candidate (d pfx : List Nat)
    (rng : Nat → Nat) (fuel : Nat) (h : trimStr pfx = []) :
    generate_salt d pfx rng (fuel + 1) =
      .ok (some (randomAlphanumeric rng 0 10,
        keccak256 (strBytes (randomAlphanumeric rng 0 10)))) ∧
    generate_salt d pfx rng (fuel + 1) = generate_salt d pfx rng 1 := by
  have hp : sanitize_prefix pfx = .ok [] := by
    have h3 := (sanitize_prefix_cases pfx).2.2
    rw [h] at h3
    simpa [strBytes, toLowercaseAscii] using h3 (by simp [strBytes]) (by simp)
  have hnil : ∀ x : List Nat, ([] : List Nat).isPrefixOf x = true := by
    intro x
    cases x <;> rfl
  have hloop : ∀ f : Nat, generate_salt_loop d [] rng 0 (f + 1) =
      some (randomAlphanumeric rng 0 10,
        digest_round_trip (strBytes (randomAlphanumeric rng 0 10))) := by
    intro f
    rw [generate_salt_loop]
    simp [hnil]
  constructor
  · unfold generate_salt
    rw [hp]
    simp only [hloop fuel, digest_round_trip_eq]
  · unfold generate_salt
    rw [hp]
    have e2 : generate_salt_loop d [] rng 0 1 =
        some (randomAlphanumeric rng 0 10,
          digest_round_trip (strBytes (randomAlphanumeric rng 0 10))) := hloop 0
    simp only [hloop fuel, e2]

/-- Witness for C8 with the all-whitespace prefix `" "`. -/
theorem claim_C8_empty_prefix_first_candidate_witness :
    generate_salt [] [32] rngZero (0 + 1) =
      .ok (some (randomAlphanumeric rngZero 0 10,
        keccak256 (strBytes (randomAlphanumeric rngZero 0 10)))) ∧
    generate_salt [] [32] rngZero (0 + 1) = generate_salt [] [32] rngZero 1 :=
  claim_C8_empty_prefix_first_candidate [] [32] rngZero 0 (by rfl)

/-- Claim C5: after joining every worker (the model returns `some` only
once every worker is done), a multithreaded search with at least one
worker returns a match written by some worker: its address satisfies
the sanitized prefix and its digest is the Keccak-256 of its salt.  The
last conjunct exhibits the accepted race: under the schedule
`[0, 1, 0, 1]` worker 0 writes its match first and worker 1 then
overwrites it, so the returned salt is worker 1's, not the first match
found. -/
theorem claim_C5_parallel_winner :
    (∀ (d sp pfx p : List Nat) (rngs : Nat → Nat → Nat) (tc : Nat)
      (sched : List Nat) (r : List Nat × List Nat),
      sanitize_prefix pfx = .ok p → 1 ≤ tc →
      generate_salt_prefix_multithread d sp pfx rngs tc sched = .ok (some r) →
      p.isPrefixOf (hexEncode (calc_addr d (strBytes r.1))) = true ∧
      r.2 = keccak256 (strBytes r.1)) ∧
    (∀ (d pfx p : List Nat) (rngs : Nat → Nat → Nat) (tc : Nat)
      (sched : List Nat) (r : List Nat × List Nat),
      sanitize_prefix pfx = .ok p → 1 ≤ tc →
      generate_salt_multithread d pfx rngs tc sched = .ok (some r) →
      p.isPrefixOf (hexEncode (calc_addr d (strBytes r.1))) = true ∧
      r.2 = keccak256 (strBytes r.1)) ∧
    generate_salt_prefix_multithread [] [] [] rngById 2 [0, 1, 0, 1] =
      .ok (some (saltWithLiteral [] (rngById 1) 0,
        digest_round_trip (strBytes (saltWithLiteral [] (rngById 1) 0)))) ∧
    saltWithLiteral [] (rngById 1) 0 ≠ saltWithLiteral [] (rngById 0) 0 := by
  refine ⟨?_, ?_, by rfl, by decide⟩
  · intro d sp pfx p rngs tc sched r hp htc h
    obtain ⟨hg, hdg⟩ := multithread_sound d sp pfx p rngs tc sched r hp htc h
    exact ⟨hg.1, hdg⟩
  · intro d pfx p rngs tc sched r hp htc h
    obtain ⟨hg, hdg⟩ := multithread_sound d [] pfx p rngs tc sched r hp htc h
    exact ⟨hg.1, hdg⟩

/-- Witness for C5: one worker, schedule long enough to join. -/
theorem claim_C5_parallel_winner_witness :
    ([] : List Nat).isPrefixOf
      (hexEncode (calc_addr [] (strBytes (saltWithLiteral [] (rngById 0) 0)))) = true ∧
    (saltWithLiteral [] (rngById 0) 0,
      digest_round_trip (strBytes (saltWithLiteral [] (rngById 0) 0))).2 =
      keccak256 (strBytes (saltWithLiteral [] (rngById 0) 0)) :=
  claim_C5_parallel_winner.1 [] [] [] [] rngById 1 [0, 0]
    (saltWithLiteral [] (rngById 0) 0,
      digest_round_trip (strBytes (saltWithLiteral [] (rngById 0) 0)))
    rfl (by decide) (by rfl)

/-- Claim C6 (amended): every candidate salt is the optional fixed
salt-prefix literal followed by a random alphanumeric suffix; the
suffix has 10 characters in sequential `generate_salt` and 7 in
`generate_salt_prefix` and in both multithreaded variants
(`generate_salt_multithread` forwards an empty salt prefix, so its
suffix has 7 characters, not 10); the returned salt starts with the
salt-prefix literal whenever it is a generated candidate — always for
the sequential variants, and for the multithreaded ones whenever at
least one worker was spawned and joined. -/
theorem claim_C6_candidate_shape_amended :
    (∀ (rng : Nat → Nat) (i : Nat), (randomAlphanumeric rng i 10).length = 10 ∧
      ∀ c ∈ randomAlphanumeric rng i 10, c ∈ ALPHANUMERIC) ∧
    (∀ (sp : List Nat) (rng : Nat → Nat) (i : Nat),
      saltWithLiteral sp rng i = sp ++ randomAlphanumeric rng i 7 ∧
      (randomAlphanumeric rng i 7).length = 7 ∧
      (∀ c ∈ randomAlphanumeric rng i 7, c ∈ ALPHANUMERIC) ∧
      sp.isPrefixOf (saltWithLiteral sp rng i) = true) ∧
    (∀ (d pfx : List Nat) (rngs : Nat → Nat → Nat) (tc : Nat) (sched : List Nat),
      generate_salt_multithread d pfx rngs tc sched =
        generate_salt_prefix_multithread d [] pfx rngs tc sched) ∧
    (∀ (d sp pfx : List Nat) (rng : Nat → Nat) (fuel : Nat) (salt dg : List Nat),
      generate_salt_prefix d sp pfx rng fuel = .ok (some (salt, dg)) →
      sp.isPrefixOf salt = true) ∧
    (∀ (d sp pfx p : List Nat) (rngs : Nat → Nat → Nat) (tc : Nat)
      (sched : List Nat) (r : List Nat × List Nat),
      sanitize_prefix pfx = .ok p → 1 ≤ tc →
      generate_salt_prefix_multithread d sp pfx rngs tc sched = .ok (some r) →
      sp.isPrefixOf r.1 = true) := by
  refine ⟨?_, ?_, fun _ _ _ _ _ => rfl, ?_, ?_⟩
  · intro rng i
    exact ⟨randomAlphanumeric_length rng i 10, randomAlphanumeric_mem rng i 10⟩
  · intro sp rng i
    exact ⟨rfl, randomAlphanumeric_length rng i 7, randomAlphanumeric_mem rng i 7,
      saltWithLiteral_isPrefixOf sp rng i⟩
  · intro d sp pfx rng fuel salt dg h
    unfold generate_salt_prefix at h
    cases hsan : sanitize_prefix pfx with
    | error e => rw [hsan] at h; exact absurd h (by simp)
    | ok p =>
      rw [hsan] at h
      simp only [Except.ok.injEq] at h
      obtain ⟨-, -, j, rfl⟩ := generate_salt_prefix_loop_sound d sp p rng fuel 0 salt dg h
      exact saltWithLiteral_isPrefixOf sp rng j
  · intro d sp pfx p rngs tc sched r hp htc h
    obtain ⟨⟨-, suf, hshape, -, -⟩, -⟩ := multithread_sound d sp pfx p rngs tc sched r hp htc h
    rw [hshape, List.isPrefixOf_iff_prefix]
    exact List.prefix_append sp suf

/-- Witness for C6: a concrete `generate_salt_prefix` run whose result
starts with the salt literal `"a"`. -/
theorem claim_C6_candidate_shape_amended_witness :
    ([97] : List Nat).isPrefixOf (saltWithLiteral [97] rngZero 0) = true :=
  claim_C6_candidate_shape_amended.2.2.2.1 [] [97] [] rngZero 1
    (saltWithLiteral [97] rngZero 0)
    (digest_round_trip (strBytes (saltWithLiteral [97] rngZero 0))) (by rfl)

/-- Counterexample for C6 as stated: `generate_salt_multithread` takes
no salt prefix, yet its workers generate 7-character candidates, not
10-character ones — with one worker and the empty address prefix the
returned candidate has length 7; and with `thread_count = 0` the
returned salt is the initial empty string, which does not start with a
non-empty salt literal. -/
theorem claim_C6_counterexample :
    generate_salt_multithread [] [] rngById 1 [0, 0] =
      .ok (some (saltWithLiteral [] (rngById 0) 0,
        digest_round_trip (strBytes (saltWithLiteral [] (rngById 0) 0)))) ∧
    (saltWithLiteral [] (rngById 0) 0).length = 7 ∧
    ¬ (saltWithLiteral [] (rngById 0) 0).length = 10 ∧
    generate_salt_prefix_multithread [] [97] [] rngById 0 [] =
      .ok (some ([], List.replicate 32 0)) ∧
    ([97] : List Nat).isPrefixOf [] = false := by
  refine ⟨by rfl, by decide, by decide, by rfl, by rfl⟩

/-- Claim C10 (amended): with `thread_count = 0` both multithreaded
entry points spawn no workers and immediately return the shared slot's
initial value `Ok ("", [0u8; 32])`; its digest component is not the
Keccak-256 digest of its salt component, and its derived address is not
guaranteed to satisfy the requested prefix — there are deployers and
valid non-empty prefixes for which it fails. -/
theorem claim_C10_zero_threads_amended (d sp pfx p : List Nat)
    (rngs : Nat → Nat → Nat) (sched : List Nat)
    (hp : sanitize_prefix pfx = .ok p) :
    generate_salt_prefix_multithread d sp pfx rngs 0 sched =
      .ok (some ([], List.replicate 32 0)) ∧
    generate_salt_multithread d pfx rngs 0 sched =
      .ok (some ([], List.replicate 32 0)) ∧
    List.replicate 32 0 ≠ keccak256 (strBytes []) ∧
    sanitize_prefix [57] = .ok [57] ∧ ([57] : List Nat) ≠ [] ∧
    ([57] : List Nat).isPrefixOf
      (hexEncode (calc_addr vectorDeployer (strBytes []))) = false := by
  have hrun : ∀ sp' : List Nat,
      generate_salt_prefix_multithread d sp' pfx rngs 0 sched =
        .ok (some ([], List.replicate 32 0)) := by
    intro sp'
    unfold generate_salt_prefix_multithread
    rw [hp]
    have hworkers : (initSearch 0).workers = [] := rfl
    dsimp only
    rw [runSearch_no_workers d sp' p rngs sched (initSearch 0) hworkers]
    rfl
  refine ⟨hrun sp, ?_, by decide, by rfl, by decide, by decide⟩
  unfold generate_salt_multithread
  exact hrun []

/-- Witness for C10 at the empty (hence valid) prefix. -/
theorem claim_C10_zero_threads_amended_witness :
    generate_salt_prefix_multithread [] [] [] rngById 0 [] =
      .ok (some ([], List.replicate 32 0)) :=
  (claim_C10_zero_threads_amended [] [] [] [] rngById [] rfl).1

/-- Counterexample for C10 as stated: the claim says the `thread_count
= 0` result's derived address "does not satisfy any non-empty prefix",
but for the known-vector deployer the address derived from the returned
empty salt starts with `"8"`, and the address derived from the returned
all-zero digest starts with `"f"` — both valid non-empty prefixes. -/
theorem claim_C10_zero_threads_counterexample :
    generate_salt_prefix_multithread vectorDeployer [] [56] rngById 0 [] =
      .ok (some ([], List.replicate 32 0)) ∧
    sanitize_prefix [56] = .ok [56] ∧ ([56] : List Nat) ≠ [] ∧
    ([56] : List Nat).isPrefixOf
      (hexEncode (calc_addr vectorDeployer (strBytes []))) = true ∧
    ([102] : List Nat).isPrefixOf
      (hexEncode (calc_addr_with_bytes vectorDeployer (List.replicate 32 0))) = true := by
  refine ⟨by rfl, by rfl, by decide, by decide, by decide⟩
